import Mathlib

/-!
Shallow embedding of the productivity-agent program (`agent.py`) and proofs
about it.

The program is a single-file conversational task tracker:
* a JSON-file task store (`load_tasks`, `save_tasks`, `add_task`,
  `complete_task`, `list_tasks`),
* a keyword intent classifier (`classify_intent`),
* a router plus response composer (`ai_agent`) that calls an external
  text-generation endpoint (`call_gemini`).

Python strings are embedded as Lean `String` (a wrapper around `List Char`,
matching Python's sequence-of-code-points model).  The Python string methods
used by the source (`str.replace`, `in`, `str.lower`, `str.upper`,
`str.strip`, `str.startswith`, `str.split`, `str.isdigit`, `str(int)`)
are defined below by structural recursion on the character list so that
every definition evaluates by kernel reduction.

The task file itself is embedded as explicit state passing: each store
operation receives the collection the Python code would have obtained from
`load_tasks()` and returns the collection it would have passed to
`save_tasks()`.  The fallible pieces of I/O (reading the file, the HTTP
call) are embedded as total functions over small outcome types, one
constructor per runtime outcome distinguished by the source.
-/

namespace Agent

/-! ## Embedded Python string primitives -/

/-- Boolean test that the first character list is a leading segment of the
second (used to embed Python substring search and `str.startswith`). -/
def isPrefixL : List Char → List Char → Bool
  | [], _ => true
  | _ :: _, [] => false
  | c :: cs, d :: ds => c == d && isPrefixL cs ds

/-- Core of Python `str.replace(old, new)`: scan left to right; at each
position with no pending skip, if `pat` matches, emit `rep` and skip the
matched characters; otherwise keep the character.  Matches Python's
non-overlapping left-to-right replacement for non-empty `pat` (every `pat`
in this development is non-empty). -/
def pyReplaceAux (pat rep : List Char) : List Char → Nat → List Char
  | [], _ => []
  | _ :: s, k + 1 => pyReplaceAux pat rep s k
  | c :: s, 0 =>
    if !pat.isEmpty && isPrefixL pat (c :: s) then
      rep ++ pyReplaceAux pat rep s (pat.length - 1)
    else
      c :: pyReplaceAux pat rep s 0

/-- Python `s.replace(old, new)`. -/
def pyReplace (s old new : String) : String :=
  ⟨pyReplaceAux old.data new.data s.data 0⟩

/-- Core of Python `pat in s`: true when `pat` occurs as a contiguous
substring, in particular always true for the empty pattern. -/
def containsSub (pat : List Char) : List Char → Bool
  | [] => pat.isEmpty
  | c :: s => isPrefixL pat (c :: s) || containsSub pat s

/-- Python `pat in s` (substring membership). -/
def pyContains (s pat : String) : Bool := containsSub pat.data s.data

/-- Python `s.lower()` (characterwise, enough for the ASCII trigger
phrases used by the program). -/
def pyLower (s : String) : String := ⟨s.data.map Char.toLower⟩

/-- Python `s.upper()` (characterwise). -/
def pyUpper (s : String) : String := ⟨s.data.map Char.toUpper⟩

/-- Python `s.strip()`: drop whitespace from both ends. -/
def pyStrip (s : String) : String :=
  ⟨((s.data.dropWhile Char.isWhitespace).reverse.dropWhile Char.isWhitespace).reverse⟩

/-- Python `s.startswith(pat)`. -/
def pyStartsWith (s pat : String) : Bool := isPrefixL pat.data s.data

/-- Core of Python `s.split()`: cut at whitespace runs, dropping empty
pieces; the accumulator holds the current word reversed. -/
def pySplitWsAux : List Char → List Char → List (List Char)
  | [], acc => if acc.isEmpty then [] else [acc.reverse]
  | c :: s, acc =>
    if c.isWhitespace then
      if acc.isEmpty then pySplitWsAux s [] else acc.reverse :: pySplitWsAux s []
    else
      pySplitWsAux s (c :: acc)

/-- Python `s.split()` with no separator argument. -/
def pySplitWs (s : String) : List (List Char) := pySplitWsAux s.data []

/-- Python `s.isdigit()` restricted to ASCII digits: non-empty and all
characters are decimal digits. -/
def pyIsDigitStr (s : List Char) : Bool := !s.isEmpty && s.all Char.isDigit

/-- Value of a string of decimal digits, as produced by Python `int(s)` on
an all-digit token. -/
def digitsToNat (s : List Char) : Nat :=
  s.foldl (fun n c => 10 * n + (c.toNat - 48)) 0

/-- Decimal digit character, as in Python's rendering of integers. -/
def digitChar (n : Nat) : Char :=
  if n = 0 then '0' else if n = 1 then '1' else if n = 2 then '2' else
  if n = 3 then '3' else if n = 4 then '4' else if n = 5 then '5' else
  if n = 6 then '6' else if n = 7 then '7' else if n = 8 then '8' else
  if n = 9 then '9' else '*'

/-- Fueled base-10 digit expansion, most significant digit first; fuel
`n + 1` always suffices. -/
def natToDigits : Nat → Nat → List Char → List Char
  | 0, _, acc => acc
  | fuel + 1, n, acc =>
      if n < 10 then digitChar n :: acc
      else natToDigits fuel (n / 10) (digitChar (n % 10) :: acc)

/-- Python `str(n)` for a natural number. -/
def natRepr (n : Nat) : String := ⟨natToDigits (n + 1) n []⟩

/-- Python `str(i)` for an integer (f-string interpolation of task ids). -/
def intRepr : Int → String
  | Int.ofNat n => natRepr n
  | Int.negSucc n => ⟨'-' :: (natRepr (n + 1)).data⟩

/-- Number of newline characters in a string; for the program's task-list
output, which terminates every line with a newline, this is the number of
lines. -/
def lineCount (s : String) : Nat := s.data.count (Char.ofNat 10)

/-! ## Data model (source: the task records written to `tasks.json`) -/

/-- One task record, as stored in `tasks.json`:
`{"id": task_id, "task": task_desc, "status": "pending"}`.  Python's
unbounded JSON integers are embedded as `Int`; the status field is the
literal string stored by the program. -/
structure Task where
  id : Int
  task : String
  status : String
deriving DecidableEq

/-- Outcome of attempting to read the persisted document, one constructor
per runtime outcome the source distinguishes:
* `absent` — `open` raises `FileNotFoundError`;
* `unreadable` — `open`/read raises some other `OSError` (for example
  `PermissionError`), carrying its message;
* `malformed` — the file is read but `json.load` raises `JSONDecodeError`;
* `valid tasks` — `json.load` returns the stored list of records. -/
inductive DocState where
  | absent : DocState
  | unreadable (errMsg : String) : DocState
  | malformed : DocState
  | valid (tasks : List Task) : DocState

/-- Embedding of `load_tasks` (agent.py lines 60-71).  The `try` block
catches exactly `FileNotFoundError` and `json.JSONDecodeError`, returning
`[]` for both; any other exception raised while opening or reading the
file propagates to the caller, embedded as `Except.error`. -/
def load_tasks : DocState → Except String (List Task)
  | DocState.absent => Except.ok []
  | DocState.unreadable e => Except.error e
  | DocState.malformed => Except.ok []
  | DocState.valid tasks => Except.ok tasks

/-- Embedding of `save_tasks` (agent.py lines 73-76): the whole collection
becomes the new contents of the persisted document, modelled as the
collection itself. -/
def save_tasks (tasks : List Task) : List Task := tasks

/-! ## Task store operations (agent.py lines 82-117)

Each operation takes the collection `load_tasks()` would return on the
good path and yields the persisted collection together with the returned
string.
-/

/-- `max([t['id'] for t in tasks], default=0)` from `add_task`. -/
def maxId (tasks : List Task) : Int :=
  match tasks.map (fun t => t.id) with
  | [] => 0
  | x :: xs => xs.foldl max x

/-- Embedding of `add_task` (agent.py lines 82-89): compute
`max(ids, default=0) + 1`, append a pending record, save, and return the
confirmation string. -/
def add_task (tasks : List Task) (task_desc : String) : List Task × String :=
  let task_id := maxId tasks + 1
  let tasks2 := save_tasks (tasks ++ [{ id := task_id, task := task_desc, status := "pending" }])
  (tasks2, "Task added: " ++ task_desc ++ " (ID: " ++ intRepr task_id ++ ")")

/-- Result of `complete_task`: the persisted collection, the returned
string, and whether `save_tasks` was invoked. -/
structure CompleteResult where
  tasks : List Task
  msg : String
  saved : Bool
deriving DecidableEq

/-- The `for t in tasks` loop of `complete_task`: find the first record
with the given id, set its status to `"completed"`, and build the
confirmation string; `none` when no record matches. -/
def completeGo (i : Int) : List Task → Option (List Task × String)
  | [] => none
  | t :: ts =>
    if t.id = i then
      some ({ t with status := "completed" } :: ts,
        "Marked task " ++ intRepr i ++ " (\x27" ++ t.task ++ "\x27) as completed.")
    else
      match completeGo i ts with
      | some (ts2, m) => some (t :: ts2, m)
      | none => none

/-- Embedding of `complete_task` (agent.py lines 91-104) for an integer
id (the program always calls it with the `int` it extracted, so the
`int(task_id)` coercion on line 95 always succeeds).  On a match the
mutated list is saved; otherwise nothing is saved and the not-found string
is returned. -/
def complete_task (tasks : List Task) (task_id : Int) : CompleteResult :=
  match completeGo task_id tasks with
  | some (ts2, m) => { tasks := save_tasks ts2, msg := m, saved := true }
  | none => { tasks := tasks, msg := "Task ID " ++ intRepr task_id ++ " not found.", saved := false }

/-- Status emoji from `list_tasks` line 115. -/
def status_icon (t : Task) : String :=
  if t.status = "completed" then "✅" else "⏳"

/-- One rendered line of `list_tasks` (line 116):
`f"{t['id']}. {status_icon} {t['task']} — {t['status'].upper()}\n"`. -/
def taskLine (t : Task) : String :=
  intRepr t.id ++ ". " ++ status_icon t ++ " " ++ t.task ++ " — " ++ pyUpper t.status ++ "\n"

/-- Embedding of `list_tasks` (agent.py lines 106-117). -/
def list_tasks (tasks : List Task) : String :=
  if tasks.isEmpty then "You have no tasks."
  else tasks.foldl (fun result t => result ++ taskLine t) "Here are your tasks:\n"

/-! ## Intent classifier (agent.py lines 123-134) -/

/-- Embedding of `classify_intent`: lowercase the message, then test the
trigger phrases by substring membership in the source's order. -/
def classify_intent (message : String) : String :=
  let msg := pyLower message
  if pyContains msg "add task" || pyContains msg "remember" || pyContains msg "todo" || pyContains msg "new task" then
    "add_task"
  else if pyContains msg "complete" || pyContains msg "done" || pyContains msg "finish" || pyContains msg "mark as complete" then
    "complete_task"
  else if pyContains msg "list" || pyContains msg "show tasks" || pyContains msg "what are my tasks" then
    "list_tasks"
  else
    "chat"

/-! ## Gemini call and response composition (agent.py lines 20-52, 140-193) -/

/-- Outcome of the HTTP request made by `call_gemini`, one constructor per
branch of the source:
* `missingKey` — `GEMINI_API_KEY` is unset, no request is made;
* `httpError body` — `response.raise_for_status()` raised; `body` is
  `response.text`;
* `parseFailure` — the 2xx response did not have the expected JSON shape
  (`KeyError` on extraction);
* `success text` — the first candidate's text was extracted. -/
inductive GeminiOutcome where
  | missingKey : GeminiOutcome
  | httpError (body : String) : GeminiOutcome
  | parseFailure : GeminiOutcome
  | success (text : String) : GeminiOutcome

/-- Embedding of `call_gemini` (agent.py lines 20-52): the string returned
for each outcome of the request. -/
def call_gemini : GeminiOutcome → String
  | GeminiOutcome.missingKey => "❌ ERROR: Missing GOOGLE_API_KEY in .env"
  | GeminiOutcome.httpError body => "❌ Gemini API Error: " ++ body
  | GeminiOutcome.parseFailure => "❌ Error: Could not parse response from Gemini."
  | GeminiOutcome.success text => text

/-- Tail of `ai_agent` (agent.py lines 187-193): wrap the generated reply
as an internal-error message exactly when it starts with the marker. -/
def agent_reply (gemini_response : String) : String :=
  if pyStartsWith gemini_response "❌" then
    "Agent encountered an internal error: " ++ gemini_response
  else
    gemini_response

/-- The `[int(s) for s in user_input.split() if s.isdigit()]` extraction
from `ai_agent` line 161. -/
def extract_nums (user_input : String) : List Nat :=
  ((pySplitWs user_input).filter pyIsDigitStr).map digitsToNat

/-- State after the routing part of `ai_agent`: the persisted collection
and the `tool_output` variable (`none` embeds Python's `None`). -/
structure AgentStep where
  tasks : List Task
  tool_output : Option String
deriving DecidableEq

/-- Embedding of the routing part of `ai_agent` (agent.py lines 148-168):
classify, then for `add_task` strip the keyword phrases from the raw input
and add; for `complete_task` use the first all-digit token as the id; for
`list_tasks` render the list; otherwise leave `tool_output` as `None`. -/
def agent_route (tasks : List Task) (user_input : String) : AgentStep :=
  let intent := classify_intent user_input
  if intent = "add_task" then
    let task_desc := pyStrip (pyReplace (pyReplace (pyReplace user_input "add task" "") "remember" "") "todo" "")
    let r := add_task tasks task_desc
    { tasks := r.1, tool_output := some r.2 }
  else if intent = "complete_task" then
    match extract_nums user_input with
    | n :: _ =>
      let r := complete_task tasks (Int.ofNat n)
      { tasks := r.tasks, tool_output := some r.msg }
    | [] => { tasks := tasks, tool_output := some "Which task number would you like to mark as complete?" }
  else if intent = "list_tasks" then
    { tasks := tasks, tool_output := some (list_tasks tasks) }
  else
    { tasks := tasks, tool_output := none }

/-! ## Spec-side definitions, for comparison with the source embedding -/

/-- Spec 4.2: the add-task trigger phrases, in priority order. -/
def add_phrases : List String := ["add task", "remember", "todo", "new task"]

/-- Spec 4.2: the complete-task trigger phrases. -/
def complete_phrases : List String := ["complete", "done", "finish", "mark as complete"]

/-- Spec 4.2: the list trigger phrases. -/
def list_phrases : List String := ["list", "show tasks", "what are my tasks"]

/-- Classifier written from the spec's words (4.2): case-insensitive
substring search over the phrase lists, in fixed priority order, first
match wins, `chat` otherwise. -/
def spec_classify (message : String) : String :=
  let msg := pyLower message
  if add_phrases.any (fun p => pyContains msg p) then "add_task"
  else if complete_phrases.any (fun p => pyContains msg p) then "complete_task"
  else if list_phrases.any (fun p => pyContains msg p) then "list_tasks"
  else "chat"

/-- The description the source actually passes to the store on the
add-task route (agent.py line 156): global replacement of `"add task"`,
then `"remember"`, then `"todo"` by the empty string, then strip.  The
phrase `"new task"` is not replaced. -/
def extracted_desc (user_input : String) : String :=
  pyStrip (pyReplace (pyReplace (pyReplace user_input "add task" "") "remember" "") "todo" "")

/-- Iterated `add`: thread the collection through a sequence of `add_task`
calls, recording the id assigned at each step (the source's `task_id`). -/
def add_many (tasks : List Task) : List String → List Task × List Int
  | [] => (tasks, [])
  | d :: ds =>
      ((add_many (add_task tasks d).1 ds).1,
        (maxId tasks + 1) :: (add_many (add_task tasks d).1 ds).2)

/-! ## Helper lemmas -/

theorem data_append (a b : String) : (a ++ b).data = a.data ++ b.data := rfl

theorem le_foldl_max (xs : List Int) : ∀ (a y : Int), (y ≤ a ∨ y ∈ xs) → y ≤ xs.foldl max a := by
  induction xs with
  | nil =>
    intro a y h
    rcases h with h | h
    · exact h
    · cases h
  | cons z zs ih =>
    intro a y h
    simp only [List.foldl_cons]
    apply ih
    rcases h with h | h
    · exact Or.inl (le_trans h (le_max_left a z))
    · rcases List.mem_cons.mp h with h | h
      · exact Or.inl (h ▸ le_max_right a z)
      · exact Or.inr h

theorem le_maxId {tasks : List Task} {t : Task} (h : t ∈ tasks) : t.id ≤ maxId tasks := by
  cases tasks with
  | nil => cases h
  | cons hd tl =>
    simp only [maxId, List.map_cons]
    rcases List.mem_cons.mp h with h | h
    · exact le_foldl_max _ _ _ (Or.inl (by rw [h]))
    · exact le_foldl_max _ _ _ (Or.inr (List.mem_map_of_mem _ h))

theorem add_many_ids (descs : List String) : ∀ tasks : List Task,
    (∀ x ∈ (add_many tasks descs).2, maxId tasks + 1 ≤ x)
    ∧ List.Pairwise (fun a b => a + 1 ≤ b) (add_many tasks descs).2 := by
  induction descs with
  | nil =>
    intro tasks
    constructor
    · intro x hx
      simp [add_many] at hx
    · simp [add_many]
  | cons d ds ih =>
    intro tasks
    have hnew : (add_task tasks d).1 = tasks ++ [{ id := maxId tasks + 1, task := d, status := "pending" }] := rfl
    have hle : maxId tasks + 1 ≤ maxId (add_task tasks d).1 := by
      rw [hnew]
      exact le_maxId (t := { id := maxId tasks + 1, task := d, status := "pending" }) (by simp)
    obtain ⟨hbound, hpw⟩ := ih (add_task tasks d).1
    constructor
    · intro x hx
      simp only [add_many, List.mem_cons] at hx
      rcases hx with rfl | hx
      · exact le_refl _
      · have := hbound x hx
        omega
    · simp only [add_many]
      refine List.Pairwise.cons ?_ hpw
      intro b hb
      have := hbound b hb
      omega

/-! ## Claim theorems -/

/-- Claim C1: for every task collection, `add(description)` assigns the new
record the id one greater than the current maximum id in the collection
(1 if the collection is empty), appends it with status pending, and for
every sequence of `add` calls starting from any collection the assigned
ids are unique and strictly increasing by at least 1. -/
theorem add_assigns_next_id_and_ids_increase
    (tasks : List Task) (desc : String) (descs : List String) :
    (add_task tasks desc).1 = tasks ++ [{ id := maxId tasks + 1, task := desc, status := "pending" }]
    ∧ (tasks = [] → maxId tasks + 1 = 1)
    ∧ (∀ t ∈ tasks, t.id < maxId tasks + 1)
    ∧ List.Pairwise (fun a b => a + 1 ≤ b) (add_many tasks descs).2
    ∧ (add_many tasks descs).2.Nodup := by
  refine ⟨rfl, ?_, ?_, (add_many_ids descs tasks).2, ?_⟩
  · rintro rfl
    rfl
  · intro t ht
    have := le_maxId ht
    omega
  · exact ((add_many_ids descs tasks).2).imp (fun h => by omega)

/-- Witness for C1: the hypotheses of each conditional conjunct hold at
concrete inputs and the conclusions evaluate. -/
theorem add_assigns_next_id_and_ids_increase_witness :
    maxId ([] : List Task) + 1 = 1
    ∧ (Task.mk 5 "a" "pending").id < maxId [Task.mk 5 "a" "pending"] + 1
    ∧ (add_many [] ["a", "b"]).2.Nodup :=
  ⟨(add_assigns_next_id_and_ids_increase [] "d" []).2.1 rfl,
   (add_assigns_next_id_and_ids_increase [Task.mk 5 "a" "pending"] "d" []).2.2.1 _ (by simp),
   (add_assigns_next_id_and_ids_increase [] "d" ["a", "b"]).2.2.2.2⟩

theorem completeGo_eq_none {tasks : List Task} {i : Int} (h : ∀ t ∈ tasks, t.id ≠ i) :
    completeGo i tasks = none := by
  induction tasks with
  | nil => rfl
  | cons hd tl ih =>
    have hhd : hd.id ≠ i := h hd (by simp)
    simp only [completeGo]
    rw [if_neg hhd, ih (fun t ht => h t (List.mem_cons_of_mem _ ht))]

theorem completeGo_eq_some {tasks : List Task} {i : Int} (h : ∃ t ∈ tasks, t.id = i) :
    ∃ p, completeGo i tasks = some p := by
  induction tasks with
  | nil =>
    rcases h with ⟨t, ht, _⟩
    cases ht
  | cons hd tl ih =>
    by_cases hhd : hd.id = i
    · exact ⟨_, by simp only [completeGo]; rw [if_pos hhd]⟩
    · have htl : ∃ t ∈ tl, t.id = i := by
        rcases h with ⟨t, ht, hti⟩
        rcases List.mem_cons.mp ht with rfl | ht
        · exact absurd hti hhd
        · exact ⟨t, ht, hti⟩
      rcases ih htl with ⟨⟨ts2, m⟩, hih⟩
      exact ⟨(hd :: ts2, m), by simp only [completeGo]; rw [if_neg hhd, hih]⟩

theorem completeGo_idem {i : Int} : ∀ (tasks : List Task) {ts2 : List Task} {m : String},
    completeGo i tasks = some (ts2, m) → completeGo i ts2 = some (ts2, m) := by
  intro tasks
  induction tasks with
  | nil =>
    intro ts2 m h
    exact absurd h (by simp [completeGo])
  | cons hd tl ih =>
    intro ts2 m h
    by_cases hhd : hd.id = i
    · simp only [completeGo] at h
      rw [if_pos hhd] at h
      cases h
      simp only [completeGo]
      rw [if_pos (show ({ hd with status := "completed" } : Task).id = i from hhd)]
    · simp only [completeGo] at h
      rw [if_neg hhd] at h
      cases hgo : completeGo i tl with
      | none => rw [hgo] at h; cases h
      | some p =>
        obtain ⟨ts2x, mx⟩ := p
        rw [hgo] at h
        cases h
        simp only [completeGo]
        rw [if_neg hhd, ih hgo]

theorem completeGo_msg {i : Int} : ∀ (tasks : List Task) {ts2 : List Task} {m : String},
    completeGo i tasks = some (ts2, m) →
    ∃ d, m = "Marked task " ++ intRepr i ++ " (\x27" ++ d ++ "\x27) as completed." := by
  intro tasks
  induction tasks with
  | nil =>
    intro ts2 m h
    exact absurd h (by simp [completeGo])
  | cons hd tl ih =>
    intro ts2 m h
    by_cases hhd : hd.id = i
    · simp only [completeGo] at h
      rw [if_pos hhd] at h
      cases h
      exact ⟨hd.task, rfl⟩
    · simp only [completeGo] at h
      rw [if_neg hhd] at h
      cases hgo : completeGo i tl with
      | none => rw [hgo] at h; cases h
      | some p =>
        obtain ⟨ts2x, mx⟩ := p
        rw [hgo] at h
        cases h
        exact ih hgo

/-- Claim C2: for every collection and every id `i` matching no record,
`complete(i)` returns the not-found message, performs no save, leaves the
persisted collection unchanged, and repeating the call changes nothing —
any number of repetitions leaves the persisted collection fixed. -/
theorem complete_absent_id_is_noop (tasks : List Task) (i : Int)
    (h : ∀ t ∈ tasks, t.id ≠ i) :
    complete_task tasks i
      = { tasks := tasks, msg := "Task ID " ++ intRepr i ++ " not found.", saved := false }
    ∧ complete_task (complete_task tasks i).tasks i = complete_task tasks i
    ∧ (∀ n : Nat, (fun ts => (complete_task ts i).tasks)^[n] tasks = tasks) := by
  have hnone := completeGo_eq_none h
  refine ⟨?_, ?_, ?_⟩
  · simp only [complete_task, hnone]
  · simp only [complete_task, hnone]
  · intro n
    induction n with
    | zero => rfl
    | succ n ih =>
      rw [Function.iterate_succ_apply]
      have hf : (complete_task tasks i).tasks = tasks := by
        simp only [complete_task, hnone]
      rw [hf, ih]

/-- Witness for C2 at a concrete collection and absent id, with the
n-fold-repetition conjunct exercised at two repetitions. -/
theorem complete_absent_id_is_noop_witness :
    complete_task [Task.mk 1 "a" "pending"] 2
      = { tasks := [Task.mk 1 "a" "pending"], msg := "Task ID 2 not found.", saved := false }
    ∧ complete_task (complete_task [Task.mk 1 "a" "pending"] 2).tasks 2
      = complete_task [Task.mk 1 "a" "pending"] 2
    ∧ (fun ts => (complete_task ts 2).tasks)^[2] [Task.mk 1 "a" "pending"]
      = [Task.mk 1 "a" "pending"] :=
  ⟨(complete_absent_id_is_noop [Task.mk 1 "a" "pending"] 2 (by decide)).1,
   (complete_absent_id_is_noop [Task.mk 1 "a" "pending"] 2 (by decide)).2.1,
   (complete_absent_id_is_noop [Task.mk 1 "a" "pending"] 2 (by decide)).2.2 2⟩

/-- Claim C7: for every collection containing a record with id `i`,
`complete(i)` saves, repeating it leaves the stored collection and the
returned message identical to the first call, and the message is the
success confirmation, not an error or a distinct message. -/
theorem complete_present_id_idempotent (tasks : List Task) (i : Int)
    (h : ∃ t ∈ tasks, t.id = i) :
    (complete_task tasks i).saved = true
    ∧ complete_task (complete_task tasks i).tasks i = complete_task tasks i
    ∧ ∃ d, (complete_task tasks i).msg
        = "Marked task " ++ intRepr i ++ " (\x27" ++ d ++ "\x27) as completed." := by
  rcases completeGo_eq_some h with ⟨⟨ts2, m⟩, hsome⟩
  have hidem := completeGo_idem _ hsome
  refine ⟨?_, ?_, ?_⟩
  · simp only [complete_task, hsome]
  · simp only [complete_task, hsome, save_tasks, hidem]
  · rcases completeGo_msg _ hsome with ⟨d, hd⟩
    exact ⟨d, by simp only [complete_task, hsome, hd]⟩

/-- Witness for C7 at a concrete collection and present id. -/
theorem complete_present_id_idempotent_witness :
    complete_task (complete_task [Task.mk 1 "a" "pending"] 1).tasks 1
      = complete_task [Task.mk 1 "a" "pending"] 1
    ∧ (complete_task [Task.mk 1 "a" "pending"] 1).saved = true :=
  ⟨(complete_present_id_idempotent [Task.mk 1 "a" "pending"] 1 (by decide)).2.1,
   (complete_present_id_idempotent [Task.mk 1 "a" "pending"] 1 (by decide)).1⟩

/-- Relation between a record before and after one store operation: id and
description are preserved, and the status either stays what it was or
becomes `"completed"`. -/
def StatusStep (old new : Task) : Prop :=
  new.id = old.id ∧ new.task = old.task ∧ (new.status = old.status ∨ new.status = "completed")

theorem statusStep_refl (l : List Task) : List.Forall₂ StatusStep l l := by
  induction l with
  | nil => exact List.Forall₂.nil
  | cons hd tl ih => exact List.Forall₂.cons ⟨rfl, rfl, Or.inl rfl⟩ ih

theorem completeGo_statusStep {i : Int} : ∀ (tasks : List Task) {ts2 : List Task} {m : String},
    completeGo i tasks = some (ts2, m) → List.Forall₂ StatusStep tasks ts2 := by
  intro tasks
  induction tasks with
  | nil =>
    intro ts2 m h
    exact absurd h (by simp [completeGo])
  | cons hd tl ih =>
    intro ts2 m h
    by_cases hhd : hd.id = i
    · simp only [completeGo] at h
      rw [if_pos hhd] at h
      cases h
      exact List.Forall₂.cons ⟨rfl, rfl, Or.inr rfl⟩ (statusStep_refl tl)
    · simp only [completeGo] at h
      rw [if_neg hhd] at h
      cases hgo : completeGo i tl with
      | none => rw [hgo] at h; cases h
      | some p =>
        obtain ⟨ts2x, mx⟩ := p
        rw [hgo] at h
        cases h
        exact List.Forall₂.cons ⟨rfl, rfl, Or.inl rfl⟩ (ih hgo)

theorem complete_task_statusStep (tasks : List Task) (i : Int) :
    List.Forall₂ StatusStep tasks (complete_task tasks i).tasks := by
  cases hgo : completeGo i tasks with
  | none =>
    simp only [complete_task, hgo]
    exact statusStep_refl tasks
  | some p =>
    obtain ⟨ts2, m⟩ := p
    simp only [complete_task, hgo, save_tasks]
    exact completeGo_statusStep _ hgo

/-- Claim C8: statuses only move forward.  New records are created pending;
`complete` preserves every record's id and description and either keeps its
status or sets it to completed (in particular a completed record is never
set back to pending); the list and chat routes leave the collection
untouched. -/
theorem status_transitions_only_forward
    (tasks : List Task) (desc : String) (i : Int) (msg : String) :
    (add_task tasks desc).1 = tasks ++ [{ id := maxId tasks + 1, task := desc, status := "pending" }]
    ∧ List.Forall₂ StatusStep tasks (complete_task tasks i).tasks
    ∧ List.Forall₂ (fun old new => old.status = "completed" → new.status = "completed")
        tasks (complete_task tasks i).tasks
    ∧ (classify_intent msg = "list_tasks" → (agent_route tasks msg).tasks = tasks)
    ∧ (classify_intent msg = "chat" → (agent_route tasks msg).tasks = tasks) := by
  refine ⟨rfl, complete_task_statusStep tasks i, ?_, ?_, ?_⟩
  · refine List.Forall₂.imp (fun a b hab hc => ?_) (complete_task_statusStep tasks i)
    rcases hab.2.2 with h | h
    · rw [h, hc]
    · exact h
  · intro hcl
    simp [agent_route, hcl]
  · intro hcl
    simp [agent_route, hcl]

/-- Witness for C8: the routing conjuncts hold at concrete messages. -/
theorem status_transitions_only_forward_witness :
    (agent_route [Task.mk 1 "a" "completed"] "show tasks").tasks = [Task.mk 1 "a" "completed"]
    ∧ (agent_route [] "hello").tasks = [] :=
  ⟨(status_transitions_only_forward [Task.mk 1 "a" "completed"] "d" 0 "show tasks").2.2.2.1 (by decide),
   (status_transitions_only_forward [] "d" 0 "hello").2.2.2.2 (by decide)⟩

theorem newline_beq_digitChar (n : Nat) : (digitChar n == Char.ofNat 10) = false := by
  unfold digitChar
  repeat' split
  all_goals decide

theorem natToDigits_count (fuel : Nat) : ∀ (n : Nat) (acc : List Char),
    (natToDigits fuel n acc).count (Char.ofNat 10) = acc.count (Char.ofNat 10) := by
  induction fuel with
  | zero => intro n acc; rfl
  | succ fuel ih =>
    intro n acc
    simp only [natToDigits]
    by_cases h : n < 10
    · rw [if_pos h, List.count_cons, newline_beq_digitChar]
      simp
    · rw [if_neg h, ih, List.count_cons, newline_beq_digitChar]
      simp

theorem intRepr_count_newline (i : Int) : (intRepr i).data.count (Char.ofNat 10) = 0 := by
  cases i with
  | ofNat n => exact natToDigits_count (n + 1) n []
  | negSucc n =>
    show (('-' :: (natRepr (n + 1)).data).count (Char.ofNat 10)) = 0
    rw [List.count_cons]
    show ((natToDigits (n + 1 + 1) (n + 1) []).count (Char.ofNat 10) + if ('-' == Char.ofNat 10) = true then 1 else 0) = 0
    rw [natToDigits_count]
    decide

theorem taskLine_count (t : Task) (hn : Char.ofNat 10 ∉ t.task.data)
    (hs : t.status = "pending" ∨ t.status = "completed") :
    (taskLine t).data.count (Char.ofNat 10) = 1 := by
  have h1 : t.task.data.count (Char.ofNat 10) = 0 := List.count_eq_zero.mpr hn
  rcases hs with hs | hs <;>
    simp [taskLine, status_icon, hs, data_append, List.count_append, h1, intRepr_count_newline] <;>
    decide

theorem foldl_append_data (l : List Task) : ∀ init : String,
    (l.foldl (fun r t => r ++ taskLine t) init).data
      = init.data ++ (l.map (fun t => (taskLine t).data)).flatten := by
  induction l with
  | nil => intro init; simp
  | cons hd tl ih =>
    intro init
    simp only [List.foldl_cons, List.map_cons, List.flatten_cons]
    rw [ih, data_append, List.append_assoc]

theorem mem_flatten_decomp {α : Type} {x : α} {f : α → List Char} : ∀ {l : List α}, x ∈ l →
    ∃ pre post, (l.map f).flatten = pre ++ f x ++ post := by
  intro l
  induction l with
  | nil => intro h; cases h
  | cons hd tl ih =>
    intro h
    rcases List.mem_cons.mp h with rfl | h
    · exact ⟨[], (tl.map f).flatten, by simp⟩
    · rcases ih h with ⟨pre, post, hp⟩
      exact ⟨f hd ++ pre, post, by simp [hp, List.append_assoc]⟩

theorem flatten_count_newline (tasks : List Task)
    (h : ∀ t ∈ tasks, Char.ofNat 10 ∉ t.task.data ∧ (t.status = "pending" ∨ t.status = "completed")) :
    ((tasks.map (fun t => (taskLine t).data)).flatten).count (Char.ofNat 10) = tasks.length := by
  induction tasks with
  | nil => rfl
  | cons hd tl ih =>
    simp only [List.map_cons, List.flatten_cons, List.count_append, List.length_cons]
    rw [taskLine_count hd (h hd (by simp)).1 (h hd (by simp)).2,
      ih (fun t ht => h t (by simp [ht]))]
    omega

theorem list_tasks_ne_nil {tasks : List Task} (h : tasks ≠ []) :
    list_tasks tasks = tasks.foldl (fun r t => r ++ taskLine t) "Here are your tasks:\n" := by
  cases tasks with
  | nil => exact absurd rfl h
  | cons hd tl => rfl

/-- Counterexample to claim C3 as stated: on a one-record collection the
rendered output has two newline-terminated lines — a header line and the
task line — so its line count is 2, not the collection size 1. -/
theorem list_line_count_is_not_collection_size :
    lineCount (list_tasks [Task.mk 1 "buy milk" "pending"]) = 2
    ∧ [Task.mk 1 "buy milk" "pending"].length = 1
    ∧ list_tasks [Task.mk 1 "buy milk" "pending"]
        = "Here are your tasks:\n1. ⏳ buy milk — PENDING\n" := by
  refine ⟨by decide, rfl, by decide⟩

/-- Claim C3 (amended): `list()` on an empty collection returns the fixed
no-tasks message; on a non-empty collection (whose descriptions contain no
newline and whose statuses are the two the program stores) the output is
the fixed header line followed by one newline-terminated line per task —
line count equals collection size plus the header line — and each task's
line renders its id followed by its description. -/
theorem list_output_header_plus_one_line_per_task
    (tasks : List Task)
    (h : ∀ t ∈ tasks, Char.ofNat 10 ∉ t.task.data ∧ (t.status = "pending" ∨ t.status = "completed")) :
    (tasks = [] → list_tasks tasks = "You have no tasks.")
    ∧ (tasks ≠ [] → lineCount (list_tasks tasks) = tasks.length + 1)
    ∧ (∀ t ∈ tasks, ∃ pre post, (list_tasks tasks).data = pre ++ (taskLine t).data ++ post)
    ∧ (∀ t : Task, (taskLine t).data
        = (intRepr t.id).data ++ (". " ++ status_icon t ++ " ").data ++ t.task.data
            ++ (" — " ++ pyUpper t.status ++ "\n").data) := by
  refine ⟨?_, ?_, ?_, ?_⟩
  · rintro rfl
    rfl
  · intro hne
    rw [lineCount, list_tasks_ne_nil hne, foldl_append_data, List.count_append,
      flatten_count_newline tasks h]
    have hhd : ("Here are your tasks:\n").data.count (Char.ofNat 10) = 1 := by decide
    omega
  · intro t ht
    rw [list_tasks_ne_nil (List.ne_nil_of_mem ht), foldl_append_data]
    rcases mem_flatten_decomp (f := fun t => (taskLine t).data) ht with ⟨pre, post, hp⟩
    exact ⟨("Here are your tasks:\n").data ++ pre, post, by rw [hp]; simp [List.append_assoc]⟩
  · intro t
    simp [taskLine, data_append, List.append_assoc]

/-- Witness for the amended C3 at concrete collections. -/
theorem list_output_header_plus_one_line_per_task_witness :
    list_tasks [] = "You have no tasks."
    ∧ lineCount (list_tasks [Task.mk 1 "buy" "pending"]) = [Task.mk 1 "buy" "pending"].length + 1 :=
  ⟨(list_output_header_plus_one_line_per_task [] (by decide)).1 rfl,
   (list_output_header_plus_one_line_per_task [Task.mk 1 "buy" "pending"] (by decide)).2.1 (by decide)⟩

/-- Claim C6: the classifier is a case-insensitive substring test evaluated
in the fixed priority order add, complete, list, with `chat` when nothing
matches — it coincides with the spec-side phrase-list classifier on every
message — and the concrete input "add task and show tasks", which contains
both an add trigger and a list trigger, classifies as `add_task`. -/
theorem classifier_priority_order_and_example :
    (∀ message : String, classify_intent message = spec_classify message)
    ∧ classify_intent "add task and show tasks" = "add_task" := by
  refine ⟨?_, by decide⟩
  intro message
  simp only [classify_intent, spec_classify, add_phrases, complete_phrases, list_phrases,
    List.any_cons, List.any_nil, Bool.or_false, Bool.or_assoc]

/-- Counterexample to claim C5 as stated: "new task buy milk" is classified
`add_task` because it matches the trigger phrase "new task", yet the
description handed to the store still contains that matched trigger — the
route's replacement chain never removes "new task". -/
theorem new_task_trigger_not_stripped :
    classify_intent "new task buy milk" = "add_task"
    ∧ (agent_route [] "new task buy milk").tasks
        = [Task.mk 1 "new task buy milk" "pending"]
    ∧ pyContains "new task buy milk" "new task" = true :=
  ⟨by decide, by decide, by decide⟩

/-- Claim C5 (amended): for every input classified `add_task`, the
description passed to the store is the raw input with all occurrences of
the trigger phrases "add task", "remember" and "todo" — but not
"new task" — replaced by the empty string and the result trimmed of
surrounding whitespace; an empty result after stripping is stored as-is. -/
theorem add_route_description_formula (tasks : List Task) (msg : String)
    (h : classify_intent msg = "add_task") :
    (agent_route tasks msg).tasks
      = tasks ++ [{ id := maxId tasks + 1, task := extracted_desc msg, status := "pending" }]
    ∧ (agent_route tasks msg).tool_output
      = some ("Task added: " ++ extracted_desc msg ++ " (ID: " ++ intRepr (maxId tasks + 1) ++ ")") := by
  constructor <;> simp [agent_route, h, add_task, extracted_desc, save_tasks]

/-- Witness for the amended C5: a normal add and an input that is empty
after stripping, both stored exactly as the formula says. -/
theorem add_route_description_formula_witness :
    (agent_route [] "add task buy milk").tasks
      = [] ++ [{ id := maxId [] + 1, task := extracted_desc "add task buy milk", status := "pending" }]
    ∧ (agent_route [] "todo").tasks
      = [] ++ [{ id := maxId [] + 1, task := extracted_desc "todo", status := "pending" }]
    ∧ extracted_desc "add task buy milk" = "buy milk"
    ∧ extracted_desc "todo" = "" :=
  ⟨(add_route_description_formula [] "add task buy milk" (by decide)).1,
   (add_route_description_formula [] "todo" (by decide)).1,
   by decide, by decide⟩

/-- Counterexample to claim C9 as stated: deleting an occurrence can splice
its surrounding characters into a fresh occurrence that survives, so not
every occurrence of a trigger phrase is absent from the stored
description — for "aadd taskdd task" the stored description is itself
"add task". -/
theorem replacement_can_recreate_trigger :
    classify_intent "aadd taskdd task" = "add_task"
    ∧ extracted_desc "aadd taskdd task" = "add task"
    ∧ pyContains (extracted_desc "aadd taskdd task") "add task" = true :=
  ⟨by decide, by decide, by decide⟩

/-- Claim C9 (amended): trigger-phrase removal on the add_task route is a
sequential global replacement — each pass removes the non-overlapping
occurrences of "add task", then "remember", then "todo", anywhere in the
message, left to right, though removal can juxtapose characters into new
occurrences that survive — and not a removal of only the leading trigger:
"add task remember to buy milk" stores the description "to buy milk", not
"remember to buy milk". -/
theorem replacement_is_global_not_leading :
    (agent_route [] "add task remember to buy milk").tasks
      = [Task.mk 1 "to buy milk" "pending"]
    ∧ extracted_desc "add task remember to buy milk" = "to buy milk"
    ∧ extracted_desc "add task remember to buy milk" ≠ "remember to buy milk" :=
  ⟨by decide, by decide, by decide⟩

/-- Counterexample to claim C4 as stated: a persisted document that exists
but cannot be read — an OS-level read failure other than non-existence,
such as permission denial — matches neither `except FileNotFoundError` nor
`except json.JSONDecodeError` in `load_tasks`, so the exception propagates
to the caller instead of yielding the empty collection. -/
theorem load_unreadable_document_raises :
    load_tasks (DocState.unreadable "PermissionError: tasks.json")
      = Except.error "PermissionError: tasks.json"
    ∧ load_tasks (DocState.unreadable "PermissionError: tasks.json") ≠ Except.ok [] :=
  ⟨rfl, fun h => Except.noConfusion h⟩

/-- Claim C4 (amended): `load()` returns the empty collection, raising
nothing, when the document is absent or when its contents are not valid
structured data, and returns the stored records when the document is
valid; only an unreadable document (an OS read error other than
non-existence) escapes as an error. -/
theorem load_recovers_absent_and_malformed :
    load_tasks DocState.absent = Except.ok []
    ∧ load_tasks DocState.malformed = Except.ok []
    ∧ (∀ ts : List Task, load_tasks (DocState.valid ts) = Except.ok ts)
    ∧ (∀ e : String, load_tasks (DocState.unreadable e) = Except.error e) :=
  ⟨rfl, rfl, fun _ => rfl, fun _ => rfl⟩

theorem startsWith_marker_of_append (pre s : String)
    (h : pyStartsWith pre "❌" = true) : pyStartsWith (pre ++ s) "❌" = true := by
  have h2 : isPrefixL ['❌'] pre.data = true := h
  show isPrefixL ['❌'] (pre ++ s).data = true
  rw [data_append]
  cases hd : pre.data with
  | nil =>
    rw [hd] at h2
    exact absurd h2 (by decide)
  | cons c cs =>
    rw [hd] at h2
    simp only [List.cons_append]
    simp only [isPrefixL, Bool.and_true] at h2 ⊢
    exact h2

/-- Claim C10: `ai_agent` detects a failed generation call solely by the
reply's leading "❌" marker — every `call_gemini` result that starts with
the marker (which all three error branches do) is wrapped as an
internal-error message, including a successfully generated reply that
happens to begin with that character, and every reply not beginning with
the marker is returned unchanged. -/
theorem error_detection_by_marker_only (out : GeminiOutcome) (s : String) :
    (pyStartsWith (call_gemini out) "❌" = true →
      agent_reply (call_gemini out) = "Agent encountered an internal error: " ++ call_gemini out)
    ∧ (pyStartsWith (call_gemini out) "❌" = false →
      agent_reply (call_gemini out) = call_gemini out)
    ∧ agent_reply (call_gemini (GeminiOutcome.success ("❌" ++ s)))
        = "Agent encountered an internal error: " ++ ("❌" ++ s)
    ∧ ((out = GeminiOutcome.missingKey ∨ (∃ b, out = GeminiOutcome.httpError b)
          ∨ out = GeminiOutcome.parseFailure) →
      pyStartsWith (call_gemini out) "❌" = true) := by
  refine ⟨?_, ?_, ?_, ?_⟩
  · intro h
    simp [agent_reply, h]
  · intro h
    simp [agent_reply, h]
  · have hpre : pyStartsWith ("❌" ++ s) "❌" = true :=
      startsWith_marker_of_append "❌" s (by decide)
    simp [call_gemini, agent_reply, hpre]
  · rintro (rfl | ⟨b, rfl⟩ | rfl)
    · decide
    · exact startsWith_marker_of_append "❌ Gemini API Error: " b (by decide)
    · decide

/-- Witness for C10: a marked error reply is wrapped and an unmarked
successful reply passes through unchanged. -/
theorem error_detection_by_marker_only_witness :
    agent_reply (call_gemini GeminiOutcome.missingKey)
      = "Agent encountered an internal error: " ++ call_gemini GeminiOutcome.missingKey
    ∧ agent_reply (call_gemini (GeminiOutcome.success "hello"))
      = call_gemini (GeminiOutcome.success "hello") :=
  ⟨(error_detection_by_marker_only GeminiOutcome.missingKey "").1 (by decide),
   (error_detection_by_marker_only (GeminiOutcome.success "hello") "").2.1 (by decide)⟩

end Agent
